import Mathlib

/-
Verification of the contract-kernel parsing library
(scripts/contract_kernel_lib.py): reference resolution, the anchors
parser and the validation-rules parser, embedded over `List Char` with
Python regular expressions modelled as explicit character scanners and
process-terminating failure modelled as `Except` with the error message.
-/

namespace ContractKernel

/-- Convert a Lean string literal to the `List Char` representation used
throughout the embedding. -/
def lstr (s : String) : List Char := s.data

/-- Python whitespace characters for `str.strip` / `\s` (ASCII range). -/
def isPySpace (c : Char) : Bool :=
  c == ' ' || c == '\t' || c == '\n' || c == '\r' || c == '\x0b' || c == '\x0c'

/-- Python `str.rstrip()`. -/
def pyRstrip (s : List Char) : List Char :=
  (s.reverse.dropWhile isPySpace).reverse

/-- Python `str.strip()`. -/
def pyStrip (s : List Char) : List Char :=
  ((s.dropWhile isPySpace).reverse.dropWhile isPySpace).reverse

/-- Python `str.lower()` (ASCII). -/
def pyLower (s : List Char) : List Char := s.map Char.toLower

/-- Python `needle in hay` substring containment. -/
def containsSub (hay needle : List Char) : Bool :=
  hay.tails.any (fun t => needle.isPrefixOf t)

/-- Strip a literal pattern from the front of a character list. -/
def dropPrefixO : List Char → List Char → Option (List Char)
  | [], s => some s
  | _ :: _, [] => none
  | p :: ps, c :: cs => if c = p then dropPrefixO ps cs else none

/-- Python `", ".join(items)`. -/
def joinComma : List (List Char) → List Char
  | [] => []
  | [x] => x
  | x :: y :: rest => x ++ lstr ", " ++ joinComma (y :: rest)

/-- Word character for the regex `\b` boundary (ASCII view). -/
def isWordChar (c : Char) : Bool := c.isAlphanum || c == '_'

/-- Python `str.splitlines()` restricted to the `\n`, `\r\n` and `\r`
terminators that occur in the documents handled by the library. -/
def splitlinesAux (cur : List Char) : List Char → List (List Char)
  | [] => if cur = [] then [] else [cur.reverse]
  | '\r' :: '\n' :: rest => cur.reverse :: splitlinesAux [] rest
  | '\n' :: rest => cur.reverse :: splitlinesAux [] rest
  | '\r' :: rest => cur.reverse :: splitlinesAux [] rest
  | c :: rest => splitlinesAux (c :: cur) rest

def splitlines (s : List Char) : List (List Char) := splitlinesAux [] s

/-- The trailing `\s*(.+)$` of the header patterns: greedy whitespace
backs off one character when everything after the colon is whitespace. -/
def lastGroup (r : List Char) : Option (List Char) :=
  let t := r.dropWhile isPySpace
  if t.isEmpty then
    match r.getLast? with
    | some c => some [c]
    | none => none
  else some t

/-- `ANCHOR_HEADER_RE = ^##\s+(Anchor-[0-9]+):\s*(.+)$` applied with
`re.match`; returns (group 1, group 2). -/
def matchAnchorHeader (s : List Char) : Option (List Char × List Char) :=
  match dropPrefixO (lstr "##") s with
  | none => none
  | some r1 =>
    if (r1.takeWhile isPySpace).isEmpty then none
    else
      match dropPrefixO (lstr "Anchor-") (r1.dropWhile isPySpace) with
      | none => none
      | some r2 =>
        let ds := r2.takeWhile Char.isDigit
        if ds.isEmpty then none
        else
          match r2.dropWhile Char.isDigit with
          | ':' :: r3 => (lastGroup r3).map (fun g => (lstr "Anchor-" ++ ds, g))
          | _ => none

/-- `RULE_HEADER_RE = ^##\s+(VR-[A-Za-z0-9]+):\s*(.+)$` applied with
`re.match`; returns (group 1, group 2). -/
def matchRuleHeader (s : List Char) : Option (List Char × List Char) :=
  match dropPrefixO (lstr "##") s with
  | none => none
  | some r1 =>
    if (r1.takeWhile isPySpace).isEmpty then none
    else
      match dropPrefixO (lstr "VR-") (r1.dropWhile isPySpace) with
      | none => none
      | some r2 =>
        let ds := r2.takeWhile Char.isAlphanum
        if ds.isEmpty then none
        else
          match r2.dropWhile Char.isAlphanum with
          | ':' :: r3 => (lastGroup r3).map (fun g => (lstr "VR-" ++ ds, g))
          | _ => none

/-- Scanner for the lazy `(.+?):\*\*` part of `FIELD_RE`: the label is
the shortest non-empty prefix followed by the literal `:**`. -/
def splitLabelAux (acc : List Char) : List Char → Option (List Char × List Char)
  | [] => none
  | c :: rest =>
    match dropPrefixO (lstr ":**") rest with
    | some r2 => some (acc ++ [c], r2)
    | none => splitLabelAux (acc ++ [c]) rest

/-- `FIELD_RE = ^\*\*(.+?):\*\*\s*(.*)$` applied with `re.match`;
returns (group 1, group 2). -/
def matchField (s : List Char) : Option (List Char × List Char) :=
  match dropPrefixO (lstr "**") s with
  | none => none
  | some r => (splitLabelAux [] r).map (fun p => (p.1, p.2.dropWhile isPySpace))

/-- The `\s+([^\)]+)` part of `CONTRACT_REF_RE` matched against the text
between `Contract` and the closing parenthesis: at least one whitespace
character, then a non-empty group (greedy whitespace backs off one
character when the whole text is whitespace). -/
def wsPlusGroup (c : List Char) : Option (List Char) :=
  match c with
  | [] => none
  | h :: t =>
    if isPySpace h then
      let g := (h :: t).dropWhile isPySpace
      if g.isEmpty then
        if t.isEmpty then none else some [(h :: t).getLast?.getD h]
      else some g
    else none

/-- One attempt of `CONTRACT_REF_RE = \(Contract\s+([^\)]+)\)\s*$` at the
start of `s`. -/
def tryContractRefAt (s : List Char) : Option (List Char) :=
  match dropPrefixO (lstr "(Contract") s with
  | none => none
  | some after =>
    let c := after.takeWhile (fun ch => ch ≠ ')')
    match after.dropWhile (fun ch => ch ≠ ')') with
    | _ :: tail => if tail.all isPySpace then wsPlusGroup c else none
    | [] => none

/-- `re.search` with `CONTRACT_REF_RE`: leftmost match; returns the match
start index and group 1. -/
def contractRefSearchAux (idx : Nat) : List Char → Option (Nat × List Char)
  | [] => none
  | c :: rest =>
    match tryContractRefAt (c :: rest) with
    | some g => some (idx, g)
    | none => contractRefSearchAux (idx + 1) rest

def contractRefSearch (s : List Char) : Option (Nat × List Char) :=
  contractRefSearchAux 0 s

/-- The `(?:\.[0-9A-Za-z]+)*` tail of `SECTION_REF_RE`: greedy repetition
of a dot followed by a non-empty alphanumeric segment. Each repetition
consumes at least two characters, so fuel equal to the input length is
never exhausted. -/
def dottedSegsF : Nat → List Char → List Char
  | 0, _ => []
  | _, [] => []
  | fuel + 1, c :: rest =>
    if c = '.' then
      let seg := rest.takeWhile Char.isAlphanum
      if seg.isEmpty then []
      else '.' :: (seg ++ dottedSegsF fuel (rest.dropWhile Char.isAlphanum))
    else []

def dottedSegs (s : List Char) : List Char := dottedSegsF s.length s

/-- One attempt of `SECTION_REF_RE = (§\s*[0-9]+(?:\.[0-9A-Za-z]+)*)` at
the start of `s`; returns the matched text. -/
def sectionRefTry (s : List Char) : Option (List Char) :=
  match s with
  | '§' :: rest =>
    let ws := rest.takeWhile isPySpace
    let r1 := rest.dropWhile isPySpace
    let ds := r1.takeWhile Char.isDigit
    if ds.isEmpty then none
    else some ('§' :: (ws ++ ds ++ dottedSegs (r1.dropWhile Char.isDigit)))
  | _ => none

/-- `re.search` with `SECTION_REF_RE`: leftmost match. -/
def sectionRefSearch : List Char → Option (List Char)
  | [] => none
  | c :: rest =>
    match sectionRefTry (c :: rest) with
    | some m => some m
    | none => sectionRefSearch rest

/-- One attempt of `Contract\s+([0-9]+(?:\.[0-9A-Za-z]+)*)` at the start
of `s`; returns group 1. -/
def contractNumTry (s : List Char) : Option (List Char) :=
  match dropPrefixO (lstr "Contract") s with
  | none => none
  | some r =>
    let ws := r.takeWhile isPySpace
    if ws.isEmpty then none
    else
      let r1 := r.dropWhile isPySpace
      let ds := r1.takeWhile Char.isDigit
      if ds.isEmpty then none
      else some (ds ++ dottedSegs (r1.dropWhile Char.isDigit))

/-- `re.search` with the `Contract <number>` pattern: leftmost match. -/
def contractNumSearch : List Char → Option (List Char)
  | [] => none
  | c :: rest =>
    match contractNumTry (c :: rest) with
    | some g => some g
    | none => contractNumSearch rest

/-- `extract_contract_ref(text)`: a `§` reference first (spaces removed),
else a `Contract N` phrase reformatted with a leading `§`, else empty. -/
def extract_contract_ref (text : List Char) : List Char :=
  match sectionRefSearch text with
  | some m => m.filter (fun ch => ch ≠ ' ')
  | none =>
    match contractNumSearch text with
    | some g => '§' :: g
    | none => []

/-- The candidate-target list of `find_section_line`: the reference
verbatim plus, when it starts with `§`, the reference with that prefix
stripped. -/
def sectionTargets (ref : List Char) : List (List Char) :=
  ref :: (if ref.head? = some '§' then [ref.tail] else [])

/-- `if target and target in line` for any candidate target. -/
def lineHasTarget (targets : List (List Char)) (line : List Char) : Bool :=
  targets.any (fun t => !t.isEmpty && containsSub line t)

def findSecAux (targets : List (List Char)) (idx : Nat) : List (List Char) → Nat
  | [] => 0
  | l :: ls => if lineHasTarget targets l then idx else findSecAux targets (idx + 1) ls

/-- `find_section_line(lines, section_ref)`: 1-based index of the first
line containing a non-empty candidate, 0 when none matches. -/
def find_section_line (lines : List (List Char)) (section_ref : List Char) : Nat :=
  findSecAux (sectionTargets section_ref) 1 lines

/-- Lower-case ASCII alphanumeric, the class kept by `normalize_field_name`. -/
def isLowerAlnum (c : Char) : Bool := ('a' ≤ c && c ≤ 'z') || c.isDigit

/-- `re.sub(r"[^a-z0-9]+", "_", s)`: collapse runs of other characters
to a single underscore. -/
def collapseAux : Bool → List Char → List Char
  | _, [] => []
  | inRun, c :: rest =>
    if isLowerAlnum c then c :: collapseAux false rest
    else if inRun then collapseAux true rest
    else '_' :: collapseAux true rest

/-- Python `str.strip("_")`. -/
def stripUnders (s : List Char) : List Char :=
  ((s.dropWhile (fun c => c = '_')).reverse.dropWhile (fun c => c = '_')).reverse

/-- `normalize_field_name(label)`. -/
def normalize_field_name (label : List Char) : List Char :=
  stripUnders (collapseAux false (pyLower (pyStrip label)))

/-- `dedup_preserve(items)`: drop later duplicates, keep first-seen order. -/
def dedupAux (seen : List (List Char)) : List (List Char) → List (List Char)
  | [] => []
  | x :: rest => if x ∈ seen then dedupAux seen rest else x :: dedupAux (x :: seen) rest

def dedup_preserve (items : List (List Char)) : List (List Char) :=
  dedupAux [] items

/-- One attempt of `GATE_ID_RE = \bVR-\d{3}[a-z]?\b` at the start of `s`,
given whether the preceding character is a word character; returns the
match and the remaining input. -/
def gateIdTryAt (prevIsWord : Bool) (s : List Char) : Option (List Char × List Char) :=
  if prevIsWord then none
  else
    match dropPrefixO (lstr "VR-") s with
    | none => none
    | some r =>
      match r with
      | d1 :: d2 :: d3 :: rest =>
        if d1.isDigit && d2.isDigit && d3.isDigit then
          match rest with
          | [] => some (lstr "VR-" ++ [d1, d2, d3], [])
          | c :: rest2 =>
            if 'a' ≤ c && c ≤ 'z' then
              match rest2 with
              | [] => some (lstr "VR-" ++ [d1, d2, d3, c], [])
              | c2 :: _ =>
                if isWordChar c2 then none
                else some (lstr "VR-" ++ [d1, d2, d3, c], rest2)
            else if isWordChar c then none
            else some (lstr "VR-" ++ [d1, d2, d3], c :: rest2)
        else none
      | _ => none

/-- `re.findall` with `GATE_ID_RE`: non-overlapping left-to-right scan,
tracking the word-character status of the previous character for `\b`.
The fuel argument starts at the input length and dominates it. -/
def gateIdFindAux : Nat → Bool → List Char → List (List Char)
  | 0, _, _ => []
  | _, _, [] => []
  | fuel + 1, prevIsWord, c :: rest =>
    match gateIdTryAt prevIsWord (c :: rest) with
    | some (m, rest2) => m :: gateIdFindAux fuel true rest2
    | none => gateIdFindAux fuel (isWordChar c) rest

def gateIdFindall (s : List Char) : List (List Char) :=
  gateIdFindAux s.length false s

/-- `current["fields"].setdefault(key, []).append(value)` over an
insertion-ordered association list (Python dict semantics). -/
def setdefaultAppend (fields : List (List Char × List (List Char)))
    (key : List Char) (val : List Char) : List (List Char × List (List Char)) :=
  if fields.any (fun kv => kv.1 == key) then
    fields.map (fun kv => if kv.1 = key then (kv.1, kv.2 ++ [val]) else kv)
  else fields ++ [(key, [val])]

/-- An anchor record as produced by `parse_anchors`; the `proof` dict is
flattened into `proof_section` / `proof_line`. -/
structure Anchor where
  id : List Char
  title : List Char
  contract_ref : List Char
  proof_section : List Char
  proof_line : Nat
deriving DecidableEq

/-- The anchor under construction (`current` in `parse_anchors`). -/
structure CurAnchor where
  id : List Char
  title : List Char
  contract_ref : List Char
deriving DecidableEq

/-- The loop state of `parse_anchors`. -/
structure AnchorSt where
  anchors : List Anchor
  seen : List (List Char)
  current : Option CurAnchor
deriving DecidableEq

/-- A validation-rule record as produced by `parse_validation_rules`;
the `enforcement` dict is flattened into `enforcement_rule`. -/
structure VRule where
  id : List Char
  title : List Char
  contract_ref : List Char
  rule : List Char
  gate_ids : List (List Char)
  fields : List (List Char × List (List Char))
  enforcement_rule : List Char
deriving DecidableEq

/-- The rule under construction (`current` in `parse_validation_rules`). -/
structure CurRule where
  id : List Char
  title : List Char
  contract_ref : List Char
  rule : List Char
  gate_ids : List (List Char)
  fields : List (List Char × List (List Char))
deriving DecidableEq

/-- The loop state of `parse_validation_rules`. -/
structure RuleSt where
  rules : List VRule
  current : Option CurRule
  gate_block : Bool
  seen : List (List Char)
deriving DecidableEq

/-- Lexicographic comparison of Python strings by code point (the order
used by `sorted(..., key=lambda item: item["id"])`). -/
def lexLeB : List Char → List Char → Bool
  | [], _ => true
  | _ :: _, [] => false
  | a :: as, b :: bs =>
    if a.toNat < b.toNat then true
    else if b.toNat < a.toNat then false
    else lexLeB as bs

def anchorRel (a b : Anchor) : Prop := lexLeB a.id b.id = true

instance : DecidableRel anchorRel :=
  fun a b => inferInstanceAs (Decidable (lexLeB a.id b.id = true))

def ruleRel (a b : VRule) : Prop := lexLeB a.id b.id = true

instance : DecidableRel ruleRel :=
  fun a b => inferInstanceAs (Decidable (lexLeB a.id b.id = true))

/-- The Python for-loop over lines with a failing body: stop at the
first error. -/
def exceptFoldl {σ α ε : Type} (f : σ → α → Except ε σ) : σ → List α → Except ε σ
  | s, [] => .ok s
  | s, a :: l =>
    match f s a with
    | .error e => .error e
    | .ok s2 => exceptFoldl f s2 l

/-- The `flush` closure of `parse_anchors`. -/
def anchorFlush (contract_lines : List (List Char)) (source : List Char)
    (st : AnchorSt) : Except (List Char) AnchorSt :=
  match st.current with
  | none => .ok st
  | some cur =>
    if cur.contract_ref = [] then
      .error (lstr "anchor " ++ cur.id ++ lstr " missing contract ref in " ++ source)
    else if cur.id ∈ st.seen then
      .error (lstr "duplicate anchor id: " ++ cur.id)
    else
      if find_section_line contract_lines cur.contract_ref = 0 then
        .error (lstr "anchor " ++ cur.id ++
          lstr " contract ref not found in CONTRACT.md: " ++ cur.contract_ref)
      else
        .ok { anchors := st.anchors ++
                [{ id := cur.id, title := cur.title, contract_ref := cur.contract_ref,
                   proof_section := cur.contract_ref,
                   proof_line := find_section_line contract_lines cur.contract_ref }]
              seen := cur.id :: st.seen
              current := none }

/-- One iteration of the `parse_anchors` line loop. -/
def anchorStep (contract_lines : List (List Char)) (source : List Char)
    (st : AnchorSt) (raw : List Char) : Except (List Char) AnchorSt :=
  let line := pyRstrip raw
  match matchAnchorHeader (pyStrip line) with
  | some hdr =>
    match anchorFlush contract_lines source st with
    | .error e => .error e
    | .ok st1 =>
      let rest := pyStrip hdr.2
      let pr :=
        match contractRefSearch rest with
        | some sg => (pyStrip sg.2, pyRstrip (rest.take sg.1))
        | none => (([] : List Char), rest)
      if pr.2 = [] then
        .error (lstr "anchor " ++ hdr.1 ++ lstr " missing title: " ++ line)
      else
        .ok { st1 with current := some { id := hdr.1, title := pr.2, contract_ref := pr.1 } }
  | none =>
    match st.current with
    | none => .ok st
    | some cur =>
      if cur.contract_ref = [] then
        let ref := extract_contract_ref line
        if ref = [] then .ok st
        else .ok { st with current := some { cur with contract_ref := ref } }
      else .ok st

/-- The line loop of `parse_anchors` followed by the final `flush()`. -/
def anchorsScan (anchors_text : List Char) (contract_lines : List (List Char))
    (source : List Char) : Except (List Char) AnchorSt :=
  match exceptFoldl (anchorStep contract_lines source)
      { anchors := [], seen := [], current := none } (splitlines anchors_text) with
  | .error e => .error e
  | .ok st => anchorFlush contract_lines source st

/-- `parse_anchors(anchors_text, contract_lines, source)`. -/
def parse_anchors (anchors_text : List Char) (contract_lines : List (List Char))
    (source : List Char) : Except (List Char) (List Anchor) :=
  match anchorsScan anchors_text contract_lines source with
  | .error e => .error e
  | .ok st =>
    if st.anchors = [] then .error (lstr "no anchors parsed from " ++ source)
    else .ok (List.insertionSort anchorRel st.anchors)

/-- The `flush` closure of `parse_validation_rules`. -/
def ruleFlush (source : List Char) (st : RuleSt) : Except (List Char) RuleSt :=
  match st.current with
  | none => .ok st
  | some cur =>
    let missing :=
      (if cur.id = [] then [lstr "id"] else []) ++
      (if cur.title = [] then [lstr "title"] else []) ++
      (if cur.contract_ref = [] then [lstr "contract_ref"] else []) ++
      (if cur.rule = [] then [lstr "rule"] else [])
    if missing ≠ [] then
      .error (lstr "validation rule " ++ cur.id ++ lstr " missing fields: " ++ joinComma missing)
    else if cur.id ∈ st.seen then
      .error (lstr "duplicate validation rule id: " ++ cur.id)
    else
      .ok { rules := st.rules ++
              [{ id := cur.id, title := cur.title, contract_ref := cur.contract_ref,
                 rule := cur.rule, gate_ids := dedup_preserve cur.gate_ids,
                 fields := cur.fields.map (fun kv => (kv.1, dedup_preserve kv.2)),
                 enforcement_rule := cur.rule }]
            current := none
            gate_block := st.gate_block
            seen := cur.id :: st.seen }

/-- The bold-field dispatch of `parse_validation_rules` (everything after
`field_match` succeeds); returns the updated rule under construction and
the new `gate_block` flag. -/
def handleField (cur : CurRule) (label value line : List Char) :
    Except (List Char) (CurRule × Bool) :=
  let ll := pyLower label
  if ll = lstr "contract ref" ∨ ll = lstr "contract citation" then
    let r := extract_contract_ref value
    .ok ({ cur with contract_ref := if r = [] then value else r }, false)
  else if ll = lstr "rule" then
    .ok ({ cur with rule := value }, false)
  else if ll = lstr "trigger" ∧ cur.rule = [] then
    .ok ({ cur with rule := value }, false)
  else if ll = lstr "failure mode" ∧ cur.rule = [] then
    .ok ({ cur with rule := value }, false)
  else if ll = lstr "gate id" then
    if value = [] then .ok (cur, true)
    else
      let ids := gateIdFindall value
      if ids = [] then .error (lstr "gate id field missing VR-XXX value: " ++ line)
      else .ok ({ cur with gate_ids := cur.gate_ids ++ ids }, false)
  else if value = [] then .ok (cur, false)
  else
    .ok ({ cur with
            fields := setdefaultAppend cur.fields (normalize_field_name label) value }, false)

/-- One iteration of the `parse_validation_rules` line loop. -/
def ruleStep (source : List Char) (st : RuleSt) (raw : List Char) :
    Except (List Char) RuleSt :=
  let line := pyRstrip raw
  match matchRuleHeader line with
  | some hdr =>
    match ruleFlush source st with
    | .error e => .error e
    | .ok st1 =>
      .ok { st1 with
            gate_block := false
            current := some { id := hdr.1, title := pyStrip hdr.2, contract_ref := [],
                              rule := [], gate_ids := [], fields := [] } }
  | none =>
    match st.current with
    | none => .ok st
    | some cur =>
      match matchField (pyStrip line) with
      | some fm =>
        match handleField cur (pyStrip fm.1) (pyStrip fm.2) line with
        | .error e => .error e
        | .ok cg => .ok { st with current := some cg.1, gate_block := cg.2 }
      | none =>
        if st.gate_block then
          let ids := gateIdFindall line
          if ids ≠ [] then
            .ok { st with current := some { cur with gate_ids := cur.gate_ids ++ ids } }
          else
            let stripped := pyStrip line
            if stripped ≠ [] ∧ (stripped.head? = some '-' ∨ stripped.head? = some '*') then
              .error (lstr "gate id list entry missing VR-XXX value: " ++ line)
            else .ok st
        else
          if cur.contract_ref = [] then
            let ref := extract_contract_ref line
            if ref = [] then .ok st
            else .ok { st with current := some { cur with contract_ref := ref } }
          else .ok st

/-- The line loop of `parse_validation_rules` followed by the final
`flush()`. -/
def rulesScan (rules_text : List Char) (source : List Char) :
    Except (List Char) RuleSt :=
  match exceptFoldl (ruleStep source)
      { rules := [], current := none, gate_block := false, seen := [] }
      (splitlines rules_text) with
  | .error e => .error e
  | .ok st => ruleFlush source st

/-- `parse_validation_rules(rules_text, source)`. -/
def parse_validation_rules (rules_text : List Char) (source : List Char) :
    Except (List Char) (List VRule) :=
  match rulesScan rules_text source with
  | .error e => .error e
  | .ok st =>
    if st.rules = [] then .error (lstr "no validation rules parsed from " ++ source)
    else .ok (List.insertionSort ruleRel st.rules)

/-- Modelled from the spec (amended): a line satisfies the resolver when
it contains the reference as a substring, or, when the reference starts
with `§` and stripping the prefix leaves a non-empty remainder, contains
that remainder; an empty reference matches nothing. -/
def specLineMatches (ref line : List Char) : Bool :=
  (!ref.isEmpty && containsSub line ref) ||
  (if ref.head? = some '§' then !ref.tail.isEmpty && containsSub line ref.tail else false)

def findSectionSpecAux (ref : List Char) (idx : Nat) : List (List Char) → Nat
  | [] => 0
  | l :: ls => if specLineMatches ref l then idx else findSectionSpecAux ref (idx + 1) ls

/-- Modelled from the spec (amended): 1-based index of the first matching
line, 0 when no line matches. -/
def findSectionSpec (lines : List (List Char)) (ref : List Char) : Nat :=
  findSectionSpecAux ref 1 lines

/-- The condition under which the bold-field dispatch stores a value into
the free-form `fields` bag. -/
def capturesToFields (cur : CurRule) (label value : List Char) : Prop :=
  value ≠ [] ∧
  ¬(pyLower label = lstr "contract ref" ∨ pyLower label = lstr "contract citation" ∨
    pyLower label = lstr "rule" ∨ pyLower label = lstr "gate id") ∧
  ¬((pyLower label = lstr "trigger" ∨ pyLower label = lstr "failure mode") ∧ cur.rule = [])

instance (cur : CurRule) (label value : List Char) :
    Decidable (capturesToFields cur label value) :=
  inferInstanceAs (Decidable (_ ∧ _ ∧ _))

/-- The invariant carried by the anchors loop: collected anchor ids are
pairwise distinct and recorded in `seen`. -/
def AnchorInv (st : AnchorSt) : Prop :=
  (st.anchors.map Anchor.id).Nodup ∧ ∀ a ∈ st.anchors, a.id ∈ st.seen

/-- The invariant carried by the rules loop: collected rule ids are
pairwise distinct and recorded in `seen`. -/
def RuleInv (st : RuleSt) : Prop :=
  (st.rules.map VRule.id).Nodup ∧ ∀ r ∈ st.rules, r.id ∈ st.seen

theorem dedupAux_mem (x : List Char) :
    ∀ (l seen : List (List Char)), x ∈ dedupAux seen l ↔ x ∈ l ∧ x ∉ seen := by
  intro l
  induction l with
  | nil => intro seen; simp [dedupAux]
  | cons y ys ih =>
    intro seen
    by_cases hy : y ∈ seen
    · rw [dedupAux, if_pos hy, ih]
      constructor
      · rintro ⟨hx, hns⟩
        exact ⟨List.mem_cons_of_mem _ hx, hns⟩
      · rintro ⟨hx, hns⟩
        rcases List.mem_cons.mp hx with rfl | hx
        · exact absurd hy hns
        · exact ⟨hx, hns⟩
    · rw [dedupAux, if_neg hy]
      simp only [List.mem_cons, ih, List.mem_cons]
      by_cases hxy : x = y
      · subst hxy
        simp [hy]
      · simp [hxy]

theorem dedupAux_nodup : ∀ (l seen : List (List Char)), (dedupAux seen l).Nodup := by
  intro l
  induction l with
  | nil => intro seen; simp [dedupAux]
  | cons y ys ih =>
    intro seen
    by_cases hy : y ∈ seen
    · rw [dedupAux, if_pos hy]; exact ih seen
    · rw [dedupAux, if_neg hy]
      refine List.Nodup.cons ?_ (ih (y :: seen))
      intro hmem
      have h2 := (dedupAux_mem y ys (y :: seen)).mp hmem
      exact h2.2 (List.mem_cons_self y seen)

theorem dedupAux_sublist : ∀ (l seen : List (List Char)), (dedupAux seen l).Sublist l := by
  intro l
  induction l with
  | nil => intro seen; simp [dedupAux]
  | cons y ys ih =>
    intro seen
    by_cases hy : y ∈ seen
    · rw [dedupAux, if_pos hy]; exact (ih seen).cons y
    · rw [dedupAux, if_neg hy]; exact (ih (y :: seen)).cons₂ y

/-- Characterization of one comparison step of the id order. -/
theorem lexLeB_cons_iff (x y : Char) (xs ys : List Char) :
    lexLeB (x :: xs) (y :: ys) = true ↔
      (x.toNat < y.toNat ∨ (x.toNat = y.toNat ∧ lexLeB xs ys = true)) := by
  by_cases h1 : x.toNat < y.toNat
  · simp [lexLeB, h1]
  · by_cases h2 : y.toNat < x.toNat
    · simp [lexLeB, h1, h2]
      omega
    · have h3 : x.toNat = y.toNat := by omega
      simp [lexLeB, h1, h2, h3]

theorem lexLeB_total : ∀ a b : List Char, lexLeB a b = true ∨ lexLeB b a = true := by
  intro a
  induction a with
  | nil => intro b; exact Or.inl rfl
  | cons x xs ih =>
    intro b
    cases b with
    | nil => exact Or.inr rfl
    | cons y ys =>
      rcases Nat.lt_trichotomy x.toNat y.toNat with h | h | h
      · exact Or.inl ((lexLeB_cons_iff x y xs ys).mpr (Or.inl h))
      · rcases ih ys with hh | hh
        · exact Or.inl ((lexLeB_cons_iff x y xs ys).mpr (Or.inr ⟨h, hh⟩))
        · exact Or.inr ((lexLeB_cons_iff y x ys xs).mpr (Or.inr ⟨h.symm, hh⟩))
      · exact Or.inr ((lexLeB_cons_iff y x ys xs).mpr (Or.inl h))

theorem lexLeB_trans :
    ∀ a b c : List Char, lexLeB a b = true → lexLeB b c = true → lexLeB a c = true := by
  intro a
  induction a with
  | nil => intro b c _ _; rfl
  | cons x xs ih =>
    intro b c hab hbc
    cases b with
    | nil => simp [lexLeB] at hab
    | cons y ys =>
      cases c with
      | nil => simp [lexLeB] at hbc
      | cons z zs =>
        rcases (lexLeB_cons_iff x y xs ys).mp hab with h1 | ⟨h1, h1t⟩ <;>
          rcases (lexLeB_cons_iff y z ys zs).mp hbc with h2 | ⟨h2, h2t⟩
        · exact (lexLeB_cons_iff x z xs zs).mpr (Or.inl (Nat.lt_trans h1 h2))
        · exact (lexLeB_cons_iff x z xs zs).mpr (Or.inl (h2 ▸ h1))
        · exact (lexLeB_cons_iff x z xs zs).mpr (Or.inl (h1 ▸ h2))
        · exact (lexLeB_cons_iff x z xs zs).mpr
            (Or.inr ⟨h1.trans h2, ih ys zs h1t h2t⟩)

/-- Invariant preservation through the stop-at-first-error line loop. -/
theorem exceptFoldl_inv {σ α ε : Type} (P : σ → Prop) (f : σ → α → Except ε σ)
    (hf : ∀ s a s2, P s → f s a = .ok s2 → P s2) :
    ∀ (l : List α) (s s2), P s → exceptFoldl f s l = .ok s2 → P s2 := by
  intro l
  induction l with
  | nil =>
    intro s s2 hP h
    rw [exceptFoldl] at h
    injection h with h2
    subst h2
    exact hP
  | cons a l ih =>
    intro s s2 hP h
    rw [exceptFoldl] at h
    cases hfa : f s a with
    | error e => rw [hfa] at h; simp at h
    | ok s1 =>
      rw [hfa] at h
      exact ih s1 s2 (hf s a s1 hP hfa) h

/-- Flushing an anchor preserves id uniqueness and the `seen` record. -/
theorem anchorFlush_inv (cl : List (List Char)) (src : List Char) (st st2 : AnchorSt)
    (h : anchorFlush cl src st = .ok st2) (hI : AnchorInv st) : AnchorInv st2 := by
  rw [anchorFlush] at h
  cases hc : st.current with
  | none =>
    rw [hc] at h
    injection h with h2
    subst h2
    exact hI
  | some cur =>
    rw [hc] at h
    simp only [] at h
    split_ifs at h with h1 h2 h3
    injection h with h4
    subst h4
    obtain ⟨hN, hS⟩ := hI
    constructor
    · simp only [List.map_append, List.map_cons, List.map_nil]
      rw [List.nodup_append]
      refine ⟨hN, List.nodup_singleton _, ?_⟩
      intro x hx hy
      simp only [List.mem_singleton] at hy
      subst hy
      obtain ⟨a, ha, hid⟩ := List.mem_map.mp hx
      exact h2 (hid ▸ hS a ha)
    · intro a ha
      rcases List.mem_append.mp ha with ha | ha
      · exact List.mem_cons_of_mem _ (hS a ha)
      · simp only [List.mem_singleton] at ha
        subst ha
        exact List.mem_cons_self _ _

/-- One anchors-loop iteration preserves id uniqueness and the `seen`
record. -/
theorem anchorStep_inv (cl : List (List Char)) (src : List Char) (st st2 : AnchorSt)
    (raw : List Char) (h : anchorStep cl src st raw = .ok st2) (hI : AnchorInv st) :
    AnchorInv st2 := by
  rw [anchorStep] at h
  cases hm : matchAnchorHeader (pyStrip (pyRstrip raw)) with
  | some hdr =>
    rw [hm] at h
    cases hfl : anchorFlush cl src st with
    | error e => rw [hfl] at h; simp at h
    | ok st1 =>
      rw [hfl] at h
      simp only [] at h
      have hI1 : AnchorInv st1 := anchorFlush_inv cl src st st1 hfl hI
      split_ifs at h
      injection h with h2
      subst h2
      exact hI1
  | none =>
    rw [hm] at h
    cases hc : st.current with
    | none =>
      rw [hc] at h
      injection h with h2
      subst h2
      exact hI
    | some cur =>
      rw [hc] at h
      simp only [] at h
      split_ifs at h with h1 h2 <;>
        (injection h with h3; subst h3; exact hI)

/-- After the scan and final flush, the anchor ids are pairwise distinct. -/
theorem anchorsScan_inv (text : List Char) (cl : List (List Char)) (src : List Char)
    (st : AnchorSt) (h : anchorsScan text cl src = .ok st) : AnchorInv st := by
  rw [anchorsScan] at h
  cases hf : exceptFoldl (anchorStep cl src)
      { anchors := [], seen := [], current := none } (splitlines text) with
  | error e => rw [hf] at h; simp at h
  | ok st1 =>
    rw [hf] at h
    have hI1 : AnchorInv st1 := by
      refine exceptFoldl_inv AnchorInv (anchorStep cl src) ?_ (splitlines text)
        { anchors := [], seen := [], current := none } st1 ?_ hf
      · intro s a s2 hP hstep
        exact anchorStep_inv cl src s s2 a hstep hP
      · exact ⟨List.nodup_nil, by intro a ha; simp at ha⟩
    exact anchorFlush_inv cl src st1 st h hI1

/-- Dissection of a two-error guard chain ending in success. -/
theorem ite2_err_ok {eps sig : Type} (A B : Prop) [Decidable A] [Decidable B]
    (e1 e2 : eps) (x s : sig)
    (h : (if A then Except.error e1 else if B then Except.error e2 else Except.ok x) =
      Except.ok s) : ¬B ∧ s = x := by
  by_cases hA : A
  · rw [if_pos hA] at h; simp at h
  · rw [if_neg hA] at h
    by_cases hB : B
    · rw [if_pos hB] at h; simp at h
    · rw [if_neg hB] at h
      injection h with h2
      exact ⟨hB, h2.symm⟩

/-- Flushing a validation rule preserves id uniqueness and the `seen`
record. -/
theorem ruleFlush_inv (src : List Char) (st st2 : RuleSt)
    (h : ruleFlush src st = .ok st2) (hI : RuleInv st) : RuleInv st2 := by
  rw [ruleFlush] at h
  cases hc : st.current with
  | none =>
    rw [hc] at h
    injection h with h2
    subst h2
    exact hI
  | some cur =>
    rw [hc] at h
    obtain ⟨hseen, rfl⟩ := ite2_err_ok _ _ _ _ _ _ h
    obtain ⟨hN, hS⟩ := hI
    constructor
    · simp only [List.map_append, List.map_cons, List.map_nil]
      rw [List.nodup_append]
      refine ⟨hN, List.nodup_singleton _, ?_⟩
      intro x hx hy
      simp only [List.mem_singleton] at hy
      subst hy
      obtain ⟨r, hr, hid⟩ := List.mem_map.mp hx
      exact hseen (hid ▸ hS r hr)
    · intro r hr
      rcases List.mem_append.mp hr with hr | hr
      · exact List.mem_cons_of_mem _ (hS r hr)
      · simp only [List.mem_singleton] at hr
        subst hr
        exact List.mem_cons_self _ _

/-- One rules-loop iteration preserves id uniqueness and the `seen`
record. -/
theorem ruleStep_inv (src : List Char) (st st2 : RuleSt) (raw : List Char)
    (h : ruleStep src st raw = .ok st2) (hI : RuleInv st) : RuleInv st2 := by
  rw [ruleStep] at h
  cases hm : matchRuleHeader (pyRstrip raw) with
  | some hdr =>
    rw [hm] at h
    cases hfl : ruleFlush src st with
    | error e => rw [hfl] at h; simp at h
    | ok st1 =>
      rw [hfl] at h
      injection h with h2
      subst h2
      exact ruleFlush_inv src st st1 hfl hI
  | none =>
    rw [hm] at h
    cases hc : st.current with
    | none =>
      rw [hc] at h
      injection h with h2
      subst h2
      exact hI
    | some cur =>
      rw [hc] at h
      simp only [] at h
      cases hfm : matchField (pyStrip (pyRstrip raw)) with
      | some fm =>
        rw [hfm] at h
        simp only [] at h
        cases hhf : handleField cur (pyStrip fm.1) (pyStrip fm.2) (pyRstrip raw) with
        | error e => rw [hhf] at h; simp at h
        | ok cg =>
          rw [hhf] at h
          injection h with h2
          subst h2
          exact hI
      | none =>
        rw [hfm] at h
        simp only [] at h
        split_ifs at h with h1 h2 h3 h4 h5 <;>
          (injection h with h6; subst h6; exact hI)

/-- After the scan and final flush, the rule ids are pairwise distinct. -/
theorem rulesScan_inv (text : List Char) (src : List Char) (st : RuleSt)
    (h : rulesScan text src = .ok st) : RuleInv st := by
  rw [rulesScan] at h
  cases hf : exceptFoldl (ruleStep src)
      { rules := [], current := none, gate_block := false, seen := [] }
      (splitlines text) with
  | error e => rw [hf] at h; simp at h
  | ok st1 =>
    rw [hf] at h
    have hI1 : RuleInv st1 := by
      refine exceptFoldl_inv RuleInv (ruleStep src) ?_ (splitlines text)
        { rules := [], current := none, gate_block := false, seen := [] } st1 ?_ hf
      · intro s a s2 hP hstep
        exact ruleStep_inv src s s2 a hstep hP
      · exact ⟨List.nodup_nil, by intro r hr; simp at hr⟩
    exact ruleFlush_inv src st1 st h hI1

/-- Per-line agreement between the implementation's candidate-target scan
and the spec-side matching predicate. -/
theorem lineHasTarget_spec (ref l : List Char) :
    lineHasTarget (sectionTargets ref) l = specLineMatches ref l := by
  by_cases hh : ref.head? = some '§'
  · simp [lineHasTarget, sectionTargets, specLineMatches, hh, List.any_cons, List.any_nil]
  · simp [lineHasTarget, sectionTargets, specLineMatches, hh, List.any_cons, List.any_nil]

theorem findSecAux_spec (ref : List Char) :
    ∀ (lines : List (List Char)) (idx : Nat),
      findSecAux (sectionTargets ref) idx lines = findSectionSpecAux ref idx lines := by
  intro lines
  induction lines with
  | nil => intro idx; rfl
  | cons l ls ih =>
    intro idx
    rw [findSecAux, findSectionSpecAux, lineHasTarget_spec]
    by_cases hm : specLineMatches ref l = true
    · simp [hm]
    · simp [hm, ih]

/-- The scan returns `idx + n` when the first `n` lines fail to match and
line `n` (0-based) matches. -/
theorem findSecAux_first (ts : List (List Char)) :
    ∀ (n : Nat) (lines : List (List Char)) (idx : Nat) (l : List Char),
      (∀ l2 ∈ lines.take n, lineHasTarget ts l2 = false) →
      lines.get? n = some l →
      lineHasTarget ts l = true →
      findSecAux ts idx lines = idx + n := by
  intro n
  induction n with
  | zero =>
    intro lines idx l hpre hget hmatch
    cases lines with
    | nil => simp at hget
    | cons x xs =>
      simp only [List.get?_cons_zero, Option.some.injEq] at hget
      subst hget
      rw [findSecAux, if_pos hmatch]
      omega
  | succ n ih =>
    intro lines idx l hpre hget hmatch
    cases lines with
    | nil => simp at hget
    | cons x xs =>
      have hx : lineHasTarget ts x = false := by
        apply hpre
        rw [List.take_succ_cons]
        exact List.mem_cons_self _ _
      rw [findSecAux, hx]
      simp only [Bool.false_eq_true, if_false]
      have hpre2 : ∀ l2 ∈ xs.take n, lineHasTarget ts l2 = false := by
        intro l2 hl2
        apply hpre
        rw [List.take_succ_cons]
        exact List.mem_cons_of_mem _ hl2
      have hget2 : xs.get? n = some l := by
        simpa using hget
      have := ih xs (idx + 1) l hpre2 hget2 hmatch
      omega

/-- C5 counterexample: the claim quantifies over every reference, but the
empty reference is skipped by the implementation (`if target and ...`),
so although line 1 contains the empty string as a substring, the function
returns 0 rather than 1. -/
theorem claim5_counterexample :
    containsSub (lstr "abc") [] = true ∧ find_section_line [lstr "abc"] [] = 0 :=
  ⟨rfl, rfl⟩

/-- C5 (amended): for every list of lines and reference, find_section_line
returns the 1-based index of the first line containing the reference as a
substring (or, when the reference starts with `§` and the stripped form is
non-empty, containing that stripped form), where empty candidates match no
line; it returns 0 when no line matches; and, because matching is plain
substring containment, reference §2.2 also resolves to a line containing
§2.20. -/
theorem claim5_find_section_line_amended :
    (∀ (lines : List (List Char)) (ref : List Char),
      find_section_line lines ref = findSectionSpec lines ref) ∧
    find_section_line [lstr "intro §2.20 details"] (lstr "§2.2") = 1 := by
  constructor
  · intro lines ref
    rw [find_section_line, findSectionSpec, findSecAux_spec]
  · rfl

/-- C6: a rules document with a `## VR-001: Sample` header and an empty
`**Gate ID:**` field followed by the bullet line `- not a gate id` fails
with the gate-id list-entry error. -/
theorem claim6_gate_list_error :
    parse_validation_rules (lstr "## VR-001: Sample\n**Gate ID:**\n- not a gate id")
      (lstr "rules.md") =
    .error (lstr "gate id list entry missing VR-XXX value: - not a gate id") := rfl

/-- C9: extract_contract_ref returns the first `§`-prefixed dotted-numeric
reference with spaces stripped when one is present; otherwise the first
`Contract <number>` phrase reformatted with a leading `§`; otherwise the
empty string — in particular a `§` form wins over a `Contract N` form even
when the `Contract N` phrase appears earlier in the text. -/
theorem claim9_ref_priority :
    (∀ (text m : List Char), sectionRefSearch text = some m →
      extract_contract_ref text = m.filter (fun ch => ch ≠ ' ')) ∧
    (∀ (text g : List Char), sectionRefSearch text = none →
      contractNumSearch text = some g →
      extract_contract_ref text = '§' :: g) ∧
    (∀ text : List Char, sectionRefSearch text = none →
      contractNumSearch text = none → extract_contract_ref text = []) ∧
    extract_contract_ref (lstr "Contract 3.4 and §1.2") = lstr "§1.2" := by
  refine ⟨?_, ?_, ?_, rfl⟩
  · intro text m hm
    simp only [extract_contract_ref, hm]
  · intro text g hn hg
    simp only [extract_contract_ref, hn, hg]
  · intro text hn hg
    simp only [extract_contract_ref, hn, hg]

/-- Witness for C9 at a concrete text containing a spaced `§` reference. -/
theorem claim9_witness :
    extract_contract_ref (lstr "see § 2.5 here") =
      (lstr "§ 2.5").filter (fun ch => ch ≠ ' ') :=
  claim9_ref_priority.1 (lstr "see § 2.5 here") (lstr "§ 2.5") rfl

/-- C4: flushing an in-progress anchor fails when contract_ref is empty,
fails when the id was already flushed, fails when the reference resolves
to no contract line, and otherwise appends the completed anchor; after the
full scan, parse_anchors fails when zero anchors were produced. -/
theorem claim4_flush_and_empty_errors :
    (∀ (cl : List (List Char)) (src : List Char) (st : AnchorSt) (cur : CurAnchor),
      st.current = some cur → cur.contract_ref = [] →
      anchorFlush cl src st =
        .error (lstr "anchor " ++ cur.id ++ lstr " missing contract ref in " ++ src)) ∧
    (∀ (cl : List (List Char)) (src : List Char) (st : AnchorSt) (cur : CurAnchor),
      st.current = some cur → cur.contract_ref ≠ [] → cur.id ∈ st.seen →
      anchorFlush cl src st = .error (lstr "duplicate anchor id: " ++ cur.id)) ∧
    (∀ (cl : List (List Char)) (src : List Char) (st : AnchorSt) (cur : CurAnchor),
      st.current = some cur → cur.contract_ref ≠ [] → cur.id ∉ st.seen →
      find_section_line cl cur.contract_ref = 0 →
      anchorFlush cl src st = .error (lstr "anchor " ++ cur.id ++
        lstr " contract ref not found in CONTRACT.md: " ++ cur.contract_ref)) ∧
    (∀ (cl : List (List Char)) (src : List Char) (st : AnchorSt) (cur : CurAnchor),
      st.current = some cur → cur.contract_ref ≠ [] → cur.id ∉ st.seen →
      find_section_line cl cur.contract_ref ≠ 0 →
      anchorFlush cl src st = .ok
        { anchors := st.anchors ++
            [{ id := cur.id
               title := cur.title
               contract_ref := cur.contract_ref
               proof_section := cur.contract_ref
               proof_line := find_section_line cl cur.contract_ref }]
          seen := cur.id :: st.seen
          current := none }) ∧
    (∀ (text : List Char) (cl : List (List Char)) (src : List Char) (st : AnchorSt),
      anchorsScan text cl src = .ok st → st.anchors = [] →
      parse_anchors text cl src = .error (lstr "no anchors parsed from " ++ src)) := by
  refine ⟨?_, ?_, ?_, ?_, ?_⟩
  · intro cl src st cur hc h1
    simp only [anchorFlush, hc]
    rw [if_pos h1]
  · intro cl src st cur hc h1 h2
    simp only [anchorFlush, hc]
    rw [if_neg h1, if_pos h2]
  · intro cl src st cur hc h1 h2 h3
    simp only [anchorFlush, hc]
    rw [if_neg h1, if_neg h2, if_pos h3]
  · intro cl src st cur hc h1 h2 h3
    simp only [anchorFlush, hc]
    rw [if_neg h1, if_neg h2, if_neg h3]
  · intro text cl src st hs he
    simp only [parse_anchors, hs]
    rw [if_pos he]

/-- Witness for C4: a concrete in-progress anchor with an empty
contract_ref makes the flush fail with the missing-contract-ref message. -/
theorem claim4_witness :
    anchorFlush [] (lstr "anchors.md")
      { anchors := [], seen := [],
        current := some { id := lstr "Anchor-001", title := lstr "T", contract_ref := [] } } =
    .error (lstr "anchor " ++ lstr "Anchor-001" ++
      lstr " missing contract ref in " ++ lstr "anchors.md") :=
  claim4_flush_and_empty_errors.1 [] (lstr "anchors.md") _ _ rfl rfl

/-- C7: whenever parse_anchors or parse_validation_rules returns, the
returned list is sorted lexicographically by id and no two returned
records share an id; concrete documents flushing two records with the
same id fail with the duplicate-id error instead. -/
theorem claim7_sorted_unique :
    (∀ (text : List Char) (cl : List (List Char)) (src : List Char) (res : List Anchor),
      parse_anchors text cl src = .ok res →
      List.Sorted anchorRel res ∧ (res.map Anchor.id).Nodup) ∧
    (∀ (text src : List Char) (res : List VRule),
      parse_validation_rules text src = .ok res →
      List.Sorted ruleRel res ∧ (res.map VRule.id).Nodup) ∧
    parse_anchors (lstr "## Anchor-001: A (Contract §1)\n## Anchor-001: B (Contract §1)")
      [lstr "§1"] (lstr "anchors.md") =
      .error (lstr "duplicate anchor id: Anchor-001") ∧
    parse_validation_rules
      (lstr "## VR-001: A\n**Contract Ref:** §1\n**Rule:** R\n## VR-001: B\n**Contract Ref:** §1\n**Rule:** R")
      (lstr "rules.md") = .error (lstr "duplicate validation rule id: VR-001") := by
  refine ⟨?_, ?_, rfl, rfl⟩
  · intro text cl src res h
    rw [parse_anchors] at h
    cases hs : anchorsScan text cl src with
    | error e => rw [hs] at h; simp at h
    | ok st =>
      rw [hs] at h
      simp only [] at h
      split_ifs at h with h1
      injection h with h2
      subst h2
      have hI := anchorsScan_inv text cl src st hs
      constructor
      · haveI : IsTotal Anchor anchorRel := ⟨fun a b => lexLeB_total a.id b.id⟩
        haveI : IsTrans Anchor anchorRel :=
          ⟨fun a b c hab hbc => lexLeB_trans a.id b.id c.id hab hbc⟩
        exact List.sorted_insertionSort anchorRel st.anchors
      · have hperm :
            ((List.insertionSort anchorRel st.anchors).map Anchor.id).Perm
              (st.anchors.map Anchor.id) :=
          (List.perm_insertionSort anchorRel st.anchors).map Anchor.id
        exact (List.Perm.nodup_iff hperm).mpr hI.1
  · intro text src res h
    rw [parse_validation_rules] at h
    cases hs : rulesScan text src with
    | error e => rw [hs] at h; simp at h
    | ok st =>
      rw [hs] at h
      simp only [] at h
      split_ifs at h with h1
      injection h with h2
      subst h2
      have hI := rulesScan_inv text src st hs
      constructor
      · haveI : IsTotal VRule ruleRel := ⟨fun a b => lexLeB_total a.id b.id⟩
        haveI : IsTrans VRule ruleRel :=
          ⟨fun a b c hab hbc => lexLeB_trans a.id b.id c.id hab hbc⟩
        exact List.sorted_insertionSort ruleRel st.rules
      · have hperm :
            ((List.insertionSort ruleRel st.rules).map VRule.id).Perm
              (st.rules.map VRule.id) :=
          (List.perm_insertionSort ruleRel st.rules).map VRule.id
        exact (List.Perm.nodup_iff hperm).mpr hI.1

/-- Witness for C7: a concrete two-anchor document parses to a list that
is sorted by id and has pairwise-distinct ids. -/
theorem claim7_witness :
    List.Sorted anchorRel
      [{ id := lstr "Anchor-001", title := lstr "A", contract_ref := lstr "§1",
         proof_section := lstr "§1", proof_line := 1 },
       { id := lstr "Anchor-002", title := lstr "B", contract_ref := lstr "§1",
         proof_section := lstr "§1", proof_line := 1 }] ∧
    (List.map Anchor.id
      [{ id := lstr "Anchor-001", title := lstr "A", contract_ref := lstr "§1",
         proof_section := lstr "§1", proof_line := 1 },
       { id := lstr "Anchor-002", title := lstr "B", contract_ref := lstr "§1",
         proof_section := lstr "§1", proof_line := 1 }]).Nodup :=
  claim7_sorted_unique.1
    (lstr "## Anchor-002: B (Contract §1)\n## Anchor-001: A (Contract §1)")
    [lstr "§1"] (lstr "anchors.md") _ rfl

/-- C1 counterexample: the claim admits any contract document whose line 7
contains §2.2, but the resolver returns the first matching line, so a
document whose line 1 also contains §2.2 yields proof line 1, not 7. -/
theorem claim1_counterexample :
    parse_anchors (lstr "## Anchor-001: Example Anchor (Contract §2.2)")
      [lstr "§2.2 intro", lstr "b", lstr "c", lstr "d", lstr "e", lstr "f", lstr "line7 §2.2"]
      (lstr "anchors.md") =
    .ok [{ id := lstr "Anchor-001", title := lstr "Example Anchor",
           contract_ref := lstr "§2.2", proof_section := lstr "§2.2",
           proof_line := 1 }] ∧ (1 : Nat) ≠ 7 :=
  ⟨rfl, by decide⟩

/-- C1 (amended): the single-header anchors document parses to exactly the
expected anchor with proof line 7 against any contract document whose
FIRST line containing §2.2 (or its unprefixed form 2.2) is line 7. -/
theorem claim1_anchor_example_amended :
    ∀ (cl : List (List Char)) (l7 : List Char),
      cl.get? 6 = some l7 →
      containsSub l7 (lstr "§2.2") = true →
      (∀ l ∈ cl.take 6,
        containsSub l (lstr "§2.2") = false ∧ containsSub l (lstr "2.2") = false) →
      parse_anchors (lstr "## Anchor-001: Example Anchor (Contract §2.2)") cl
        (lstr "anchors.md") =
      .ok [{ id := lstr "Anchor-001", title := lstr "Example Anchor",
             contract_ref := lstr "§2.2", proof_section := lstr "§2.2",
             proof_line := 7 }] := by
  intro cl l7 hget hc7 hpre
  have htg : sectionTargets (lstr "§2.2") = [lstr "§2.2", lstr "2.2"] := rfl
  have hne1 : (lstr "§2.2").isEmpty = false := rfl
  have hne2 : (lstr "2.2").isEmpty = false := rfl
  have hfind : find_section_line cl (lstr "§2.2") = 7 := by
    have h7 : lineHasTarget (sectionTargets (lstr "§2.2")) l7 = true := by
      rw [htg, lineHasTarget]
      simp [List.any_cons, List.any_nil, hne1, hne2, hc7]
    have hpre2 : ∀ l2 ∈ cl.take 6, lineHasTarget (sectionTargets (lstr "§2.2")) l2 = false := by
      intro l2 hl2
      obtain ⟨ha, hb⟩ := hpre l2 hl2
      rw [htg, lineHasTarget]
      simp [List.any_cons, List.any_nil, ha, hb]
    have hm := findSecAux_first (sectionTargets (lstr "§2.2")) 6 cl 1 l7 hpre2 hget h7
    rw [find_section_line, hm]
  have hscan : anchorsScan (lstr "## Anchor-001: Example Anchor (Contract §2.2)") cl
      (lstr "anchors.md") =
      (if find_section_line cl (lstr "§2.2") = 0 then
        Except.error (lstr "anchor " ++ lstr "Anchor-001" ++
          lstr " contract ref not found in CONTRACT.md: " ++ lstr "§2.2")
      else Except.ok
        { anchors :=
            [{ id := lstr "Anchor-001"
               title := lstr "Example Anchor"
               contract_ref := lstr "§2.2"
               proof_section := lstr "§2.2"
               proof_line := find_section_line cl (lstr "§2.2") }]
          seen := [lstr "Anchor-001"]
          current := none }) := rfl
  rw [hfind] at hscan
  rw [if_neg (by decide : ¬(7 : Nat) = 0)] at hscan
  rw [parse_anchors] at *
  rw [hscan]
  rfl

/-- Witness for C1 at a concrete 7-line contract document whose first
matching line is line 7. -/
theorem claim1_witness :
    parse_anchors (lstr "## Anchor-001: Example Anchor (Contract §2.2)")
      [lstr "one", lstr "two", lstr "three", lstr "four", lstr "five", lstr "six",
       lstr "seven §2.2"] (lstr "anchors.md") =
    .ok [{ id := lstr "Anchor-001", title := lstr "Example Anchor",
           contract_ref := lstr "§2.2", proof_section := lstr "§2.2",
           proof_line := 7 }] :=
  claim1_anchor_example_amended
    [lstr "one", lstr "two", lstr "three", lstr "four", lstr "five", lstr "six",
     lstr "seven §2.2"] (lstr "seven §2.2") rfl rfl (by decide)

/-- C2 counterexample: an explicit Rule field is applied unconditionally,
so a second Rule field overwrites the first; with `**Rule:** A` then
`**Rule:** B` the resulting rule is B, not the first populated value A. -/
theorem claim2_counterexample :
    parse_validation_rules
      (lstr "## VR-001: Sample\n**Contract Ref:** §1\n**Rule:** A\n**Rule:** B")
      (lstr "rules.md") =
    .ok [{ id := lstr "VR-001"
           title := lstr "Sample"
           contract_ref := lstr "§1"
           rule := lstr "B"
           gate_ids := []
           fields := []
           enforcement_rule := lstr "B" }] ∧ lstr "B" ≠ lstr "A" :=
  ⟨rfl, by decide⟩

/-- C2 (amended): an explicit Rule field sets `rule` unconditionally (a
later Rule field overwrites an earlier value); Trigger and Failure Mode
fields set `rule` only while it is still empty and never overwrite it. -/
theorem claim2_rule_priority_amended :
    ∀ (cur : CurRule) (v line : List Char),
      handleField cur (lstr "Rule") v line = .ok ({ cur with rule := v }, false) ∧
      (cur.rule = [] →
        handleField cur (lstr "Trigger") v line = .ok ({ cur with rule := v }, false)) ∧
      (cur.rule = [] →
        handleField cur (lstr "Failure Mode") v line = .ok ({ cur with rule := v }, false)) ∧
      (cur.rule ≠ [] → ∀ out, handleField cur (lstr "Trigger") v line = .ok out →
        out.1.rule = cur.rule) ∧
      (cur.rule ≠ [] → ∀ out, handleField cur (lstr "Failure Mode") v line = .ok out →
        out.1.rule = cur.rule) := by
  intro cur v line
  obtain ⟨cid, ctitle, cref, crule, cg, cf⟩ := cur
  refine ⟨rfl, ?_, ?_, ?_, ?_⟩
  · intro h
    cases crule with
    | nil => rfl
    | cons c cs => exact List.noConfusion h
  · intro h
    cases crule with
    | nil => rfl
    | cons c cs => exact List.noConfusion h
  · intro h out hh
    cases crule with
    | nil => exact absurd rfl h
    | cons c cs =>
      by_cases hv : v = []
      · subst hv
        injection hh with h2
        subst h2
        rfl
      · have he : handleField ⟨cid, ctitle, cref, c :: cs, cg, cf⟩ (lstr "Trigger") v line =
            .ok (⟨cid, ctitle, cref, c :: cs, cg,
              setdefaultAppend cf (normalize_field_name (lstr "Trigger")) v⟩, false) := by
          simp only [handleField]
          rw [if_neg (by decide), if_neg (by decide), if_neg (by simp), if_neg (by simp),
            if_neg (by decide), if_neg hv]
        rw [he] at hh
        injection hh with h2
        subst h2
        rfl
  · intro h out hh
    cases crule with
    | nil => exact absurd rfl h
    | cons c cs =>
      by_cases hv : v = []
      · subst hv
        injection hh with h2
        subst h2
        rfl
      · have he : handleField ⟨cid, ctitle, cref, c :: cs, cg, cf⟩ (lstr "Failure Mode") v line =
            .ok (⟨cid, ctitle, cref, c :: cs, cg,
              setdefaultAppend cf (normalize_field_name (lstr "Failure Mode")) v⟩, false) := by
          simp only [handleField]
          rw [if_neg (by decide), if_neg (by decide), if_neg (by simp), if_neg (by simp),
            if_neg (by decide), if_neg hv]
        rw [he] at hh
        injection hh with h2
        subst h2
        rfl

/-- Witness for C2: with an empty rule, a concrete Trigger field fills it. -/
theorem claim2_witness :
    handleField
      { id := lstr "VR-001"
        title := lstr "T"
        contract_ref := lstr "§1"
        rule := []
        gate_ids := []
        fields := [] } (lstr "Trigger") (lstr "X") (lstr "ln") =
    .ok ({ id := lstr "VR-001"
           title := lstr "T"
           contract_ref := lstr "§1"
           rule := lstr "X"
           gate_ids := []
           fields := [] }, false) :=
  (claim2_rule_priority_amended
    { id := lstr "VR-001"
      title := lstr "T"
      contract_ref := lstr "§1"
      rule := []
      gate_ids := []
      fields := [] } (lstr "X") (lstr "ln")).2.1 rfl

/-- C3 counterexample: `Trigger` is a recognized label, yet when `rule` is
already populated a non-empty Trigger field falls through to the free-form
`fields` bag, so `fields` can contain an entry for a recognized label. -/
theorem claim3_counterexample :
    parse_validation_rules
      (lstr "## VR-001: Sample\n**Contract Ref:** §1\n**Rule:** R\n**Trigger:** X")
      (lstr "rules.md") =
    .ok [{ id := lstr "VR-001"
           title := lstr "Sample"
           contract_ref := lstr "§1"
           rule := lstr "R"
           gate_ids := []
           fields := [(lstr "trigger", [lstr "X"])]
           enforcement_rule := lstr "R" }] ∧
    lstr "trigger" ∈ [(lstr "trigger", [lstr "X"])].map Prod.fst :=
  ⟨rfl, by decide⟩

/-- C3 (amended): the bold-field dispatch stores a value into the
free-form `fields` bag exactly when the value is non-empty, the
lower-cased label is none of contract ref / contract citation / rule /
gate id, and the label is not a trigger or failure-mode label consumed by
an empty `rule`; the entry is keyed by the normalized label and appended
in encounter order. -/
theorem claim3_fields_amended :
    ∀ (cur : CurRule) (label value line : List Char) (out : CurRule × Bool),
      handleField cur label value line = .ok out →
      out.1.fields =
        (if capturesToFields cur label value then
          setdefaultAppend cur.fields (normalize_field_name label) value
        else cur.fields) := by
  intro cur label value line out h
  simp only [handleField] at h
  by_cases c1 : pyLower label = lstr "contract ref" ∨ pyLower label = lstr "contract citation"
  · rw [if_pos c1] at h
    injection h with hout
    subst hout
    rw [if_neg (show ¬ capturesToFields cur label value from fun hcap => hcap.2.1
      (c1.elim (fun hx => Or.inl hx) (fun hx => Or.inr (Or.inl hx))))]
  · rw [if_neg c1] at h
    by_cases c2 : pyLower label = lstr "rule"
    · rw [if_pos c2] at h
      injection h with hout
      subst hout
      rw [if_neg (show ¬ capturesToFields cur label value from fun hcap => hcap.2.1 (Or.inr (Or.inr (Or.inl c2))))]
    · rw [if_neg c2] at h
      by_cases c3 : pyLower label = lstr "trigger" ∧ cur.rule = []
      · rw [if_pos c3] at h
        injection h with hout
        subst hout
        rw [if_neg (show ¬ capturesToFields cur label value from fun hcap => hcap.2.2 ⟨Or.inl c3.1, c3.2⟩)]
      · rw [if_neg c3] at h
        by_cases c4 : pyLower label = lstr "failure mode" ∧ cur.rule = []
        · rw [if_pos c4] at h
          injection h with hout
          subst hout
          rw [if_neg (show ¬ capturesToFields cur label value from fun hcap => hcap.2.2 ⟨Or.inr c4.1, c4.2⟩)]
        · rw [if_neg c4] at h
          by_cases c5 : pyLower label = lstr "gate id"
          · rw [if_pos c5] at h
            by_cases cv : value = []
            · rw [if_pos cv] at h
              injection h with hout
              subst hout
              rw [if_neg (show ¬ capturesToFields cur label value from fun hcap => hcap.2.1 (Or.inr (Or.inr (Or.inr c5))))]
            · rw [if_neg cv] at h
              by_cases cid : gateIdFindall value = []
              · rw [if_pos cid] at h
                exact absurd h (by simp)
              · rw [if_neg cid] at h
                injection h with hout
                subst hout
                rw [if_neg (show ¬ capturesToFields cur label value from fun hcap => hcap.2.1 (Or.inr (Or.inr (Or.inr c5))))]
          · rw [if_neg c5] at h
            by_cases cv : value = []
            · rw [if_pos cv] at h
              injection h with hout
              subst hout
              rw [if_neg (show ¬ capturesToFields cur label value from fun hcap => hcap.1 cv)]
            · rw [if_neg cv] at h
              injection h with hout
              subst hout
              rw [if_pos (show capturesToFields cur label value from
                ⟨cv, by
                  rintro (hx | hx | hx | hx)
                  exacts [c1 (Or.inl hx), c1 (Or.inr hx), c2 hx, c5 hx], by
                  rintro ⟨hx | hx, hr⟩
                  exacts [c3 ⟨hx, hr⟩, c4 ⟨hx, hr⟩]⟩)]

/-- Witness for C3 at a concrete unrecognized label with a non-empty
value: the value is captured under the normalized key. -/
theorem claim3_witness :
    ([(lstr "notes", [lstr "x"])] : List (List Char × List (List Char))) =
    (if capturesToFields
        { id := lstr "VR-001"
          title := lstr "T"
          contract_ref := lstr "§1"
          rule := lstr "R"
          gate_ids := []
          fields := [] } (lstr "Notes") (lstr "x") then
      setdefaultAppend [] (normalize_field_name (lstr "Notes")) (lstr "x")
    else []) :=
  claim3_fields_amended
    { id := lstr "VR-001"
      title := lstr "T"
      contract_ref := lstr "§1"
      rule := lstr "R"
      gate_ids := []
      fields := [] } (lstr "Notes") (lstr "x") (lstr "ln")
    ({ id := lstr "VR-001"
       title := lstr "T"
       contract_ref := lstr "§1"
       rule := lstr "R"
       gate_ids := []
       fields := [(lstr "notes", [lstr "x"])] }, false) rfl

/-- C8: dedup_preserve removes later duplicates while preserving
first-seen order (it is a duplicate-free sublist with the same members);
the flush applies it to gate_ids and to every fields value list; and the
concrete inline-plus-block occurrence list [VR-010, VR-010, VR-011]
yields gate_ids [VR-010, VR-011] end to end. -/
theorem claim8_dedup :
    (∀ l : List (List Char), (dedup_preserve l).Nodup ∧ (dedup_preserve l).Sublist l ∧
      ∀ x, x ∈ dedup_preserve l ↔ x ∈ l) ∧
    dedup_preserve [lstr "VR-010", lstr "VR-010", lstr "VR-011"] =
      [lstr "VR-010", lstr "VR-011"] ∧
    (∀ (src : List Char) (st : RuleSt) (cur : CurRule),
      st.current = some cur → cur.id ≠ [] → cur.title ≠ [] → cur.contract_ref ≠ [] →
      cur.rule ≠ [] → cur.id ∉ st.seen →
      ruleFlush src st = .ok
        { rules := st.rules ++
            [{ id := cur.id
               title := cur.title
               contract_ref := cur.contract_ref
               rule := cur.rule
               gate_ids := dedup_preserve cur.gate_ids
               fields := cur.fields.map (fun kv => (kv.1, dedup_preserve kv.2))
               enforcement_rule := cur.rule }]
          current := none
          gate_block := st.gate_block
          seen := cur.id :: st.seen }) ∧
    parse_validation_rules
      (lstr "## VR-001: Sample\n**Contract Ref:** §1\n**Rule:** Something\n**Gate ID:** VR-010\n**Gate ID:**\n- VR-010\n- VR-011")
      (lstr "rules.md") =
    .ok [{ id := lstr "VR-001"
           title := lstr "Sample"
           contract_ref := lstr "§1"
           rule := lstr "Something"
           gate_ids := [lstr "VR-010", lstr "VR-011"]
           fields := []
           enforcement_rule := lstr "Something" }] := by
  refine ⟨?_, rfl, ?_, rfl⟩
  · intro l
    refine ⟨dedupAux_nodup l [], dedupAux_sublist l [], fun x => ?_⟩
    rw [dedup_preserve, dedupAux_mem]
    simp
  · intro src st cur hc h1 h2 h3 h4 h5
    simp only [ruleFlush, hc]
    rw [if_neg h1, if_neg h2, if_neg h3, if_neg h4]
    rw [if_neg (by simp), if_neg h5]

/-- Witness for C8: a concrete flush deduplicates the collected gate ids
while preserving first-seen order. -/
theorem claim8_witness :
    ruleFlush (lstr "rules.md")
      { rules := []
        current := some
          { id := lstr "VR-001"
            title := lstr "T"
            contract_ref := lstr "§1"
            rule := lstr "R"
            gate_ids := [lstr "VR-010", lstr "VR-010", lstr "VR-011"]
            fields := [] }
        gate_block := false
        seen := [] } =
    .ok { rules :=
            [{ id := lstr "VR-001"
               title := lstr "T"
               contract_ref := lstr "§1"
               rule := lstr "R"
               gate_ids := [lstr "VR-010", lstr "VR-011"]
               fields := []
               enforcement_rule := lstr "R" }]
          current := none
          gate_block := false
          seen := [lstr "VR-001"] } :=
  claim8_dedup.2.2.1 (lstr "rules.md")
    { rules := []
      current := some
        { id := lstr "VR-001"
          title := lstr "T"
          contract_ref := lstr "§1"
          rule := lstr "R"
          gate_ids := [lstr "VR-010", lstr "VR-010", lstr "VR-011"]
          fields := [] }
      gate_block := false
      seen := [] } _ rfl (by decide) (by decide) (by decide) (by decide) (by decide)

/-- C10: while the gate block opened by an empty Gate ID field is active,
a line that is no header, no field, contributes no gate-id token and is
not a bullet line leaves the state unchanged; a rule whose other required
fields are populated and whose gate list stays empty is returned with
gate_ids = []. -/
theorem claim10_empty_gate_ok :
    (∀ (src : List Char) (st : RuleSt) (cur : CurRule) (raw : List Char),
      st.current = some cur → st.gate_block = true →
      matchRuleHeader (pyRstrip raw) = none →
      matchField (pyStrip (pyRstrip raw)) = none →
      gateIdFindall (pyRstrip raw) = [] →
      ¬(pyStrip (pyRstrip raw) ≠ [] ∧
        ((pyStrip (pyRstrip raw)).head? = some '-' ∨
          (pyStrip (pyRstrip raw)).head? = some '*')) →
      ruleStep src st raw = .ok st) ∧
    parse_validation_rules
      (lstr "## VR-001: Sample\n**Contract Ref:** §1\n**Rule:** R\n**Gate ID:**")
      (lstr "rules.md") =
    .ok [{ id := lstr "VR-001"
           title := lstr "Sample"
           contract_ref := lstr "§1"
           rule := lstr "R"
           gate_ids := []
           fields := []
           enforcement_rule := lstr "R" }] := by
  refine ⟨?_, rfl⟩
  intro src st cur raw hc hg hmh hmf hids hnb
  simp only [ruleStep, hmh, hc, hmf, hg]
  rw [if_pos trivial, hids]
  rw [if_neg (by simp), if_neg hnb]

/-- Witness for C10: a prose line inside an open gate block leaves a
concrete state unchanged. -/
theorem claim10_witness :
    ruleStep (lstr "rules.md")
      { rules := []
        current := some
          { id := lstr "VR-001"
            title := lstr "T"
            contract_ref := lstr "§1"
            rule := lstr "R"
            gate_ids := []
            fields := [] }
        gate_block := true
        seen := [] } (lstr "just prose, no ids here") =
    .ok { rules := []
          current := some
            { id := lstr "VR-001"
              title := lstr "T"
              contract_ref := lstr "§1"
              rule := lstr "R"
              gate_ids := []
              fields := [] }
          gate_block := true
          seen := [] } :=
  claim10_empty_gate_ok.1 (lstr "rules.md")
    { rules := []
      current := some
        { id := lstr "VR-001"
          title := lstr "T"
          contract_ref := lstr "§1"
          rule := lstr "R"
          gate_ids := []
          fields := [] }
      gate_block := true
      seen := [] }
    { id := lstr "VR-001"
      title := lstr "T"
      contract_ref := lstr "§1"
      rule := lstr "R"
      gate_ids := []
      fields := [] } (lstr "just prose, no ids here") rfl rfl rfl rfl rfl (by decide)

end ContractKernel
